import Mathlib

/-!
Verification of the shared STOMP connection broker of `angular16-app`.

The definitions below are a shallow embedding of the SharedWorker in
`src/assets/stomp-worker-enhanced.js` (the `ProviderConnection` class and the
port-message dispatch around it) and of the consumer-side request/response
correlation in `projects/stomp-client/src/public-api.ts`
(`sendWorkerMessage` / `handleWorkerMessage`).

JavaScript values appearing in frames are modelled by the inductive `Json`
(numbers as `Int`: every payload in this code path is integral), JS `Map`s by
association lists with `Map.set`/`Map.get`/`Map.delete` semantics, and the JS
string primitives `trim` / `toLowerCase` / `includes` by the `js*` functions
on the underlying character lists.  `JSON.parse` is a platform builtin, not
repository code, so the handlers are parameterised by a parse oracle
`parse : String -> Option Json` (`none` models a parse exception).
-/

/-- A JSON value as produced by `JSON.parse`. -/
inductive Json where
  | null : Json
  | bool (b : Bool) : Json
  | num (n : Int) : Json
  | str (s : String) : Json
  | arr (elems : List Json) : Json
  | obj (fields : List (String × Json)) : Json

/-- The JS test `v === null` on a parsed value. -/
def Json.isNull : Json → Bool
  | .null => true
  | _ => false

/-- JS `String.prototype.trim` on the character list: drop whitespace from
both ends. -/
def jsTrimList (l : List Char) : List Char :=
  ((l.dropWhile Char.isWhitespace).reverse.dropWhile Char.isWhitespace).reverse

/-- JS `String.prototype.trim`. -/
def jsTrim (s : String) : String :=
  ⟨jsTrimList s.data⟩

/-- JS `String.prototype.toLowerCase` (ASCII range, which is all this code
ever compares). -/
def jsToLower (s : String) : String :=
  ⟨s.data.map Char.toLower⟩

/-- Contiguous-occurrence search underlying `String.prototype.includes`. -/
def jsIncludesAux (sub : List Char) : List Char → Bool
  | [] => sub.isEmpty
  | c :: rest => sub.isPrefixOf (c :: rest) || jsIncludesAux sub rest

/-- JS `String.prototype.includes`: `sub` occurs contiguously in `s`. -/
def jsIncludes (s sub : String) : Bool :=
  jsIncludesAux sub.data s.data

/-- JS `Map.prototype.set` on an association list: replace the value of an
existing key in place, otherwise append the new entry. -/
def jsMapSet {α : Type} : List (String × α) → String → α → List (String × α)
  | [], k, v => [(k, v)]
  | (k', v') :: rest, k, v =>
    if k' = k then (k, v) :: rest
    else (k', v') :: jsMapSet rest k v

/-- JS `Map.prototype.get` (`none` models `undefined`). -/
def jsMapGet {α : Type} : List (String × α) → String → Option α
  | [], _ => none
  | (k', v) :: rest, k => if k' = k then some v else jsMapGet rest k

/-- JS `Map.prototype.delete`. -/
def jsMapDelete {α : Type} : List (String × α) → String → List (String × α)
  | [], _ => []
  | (k', v) :: rest, k => if k' = k then rest else (k', v) :: jsMapDelete rest k

/-- The keys of a JS `Map` modelled as an association list. -/
def jsMapKeys {α : Type} (m : List (String × α)) : List String :=
  m.map Prod.fst

/-- JS property read `v[k]` for the values `JSON.parse` can produce, short of
the `TypeError` on `null` (handled at the call site): object lookup, and
`undefined` (`none`) on every non-object. -/
def jsIndex : Json → String → Option Json
  | .obj fields, k => jsMapGet fields k
  | _, _ => none

mutual

/-- JS `String(v)` coercion for `JSON.parse` values. -/
def jsString : Json → String
  | .null => "null"
  | .bool b => cond b "true" "false"
  | .num n => toString n
  | .str s => s
  | .arr elems => jsStringJoin elems
  | .obj _ => "[object Object]"

/-- `Array.prototype.join` with the default comma separator, as invoked by
`String(array)`. -/
def jsStringJoin : List Json → String
  | [] => ""
  | [x] => jsStringElem x
  | x :: xs => jsStringElem x ++ "," ++ jsStringJoin xs

/-- One array element under `Array.prototype.join`: `null` renders empty. -/
def jsStringElem : Json → String
  | .null => ""
  | .bool b => cond b "true" "false"
  | .num n => toString n
  | .str s => s
  | .arr elems => jsStringJoin elems
  | .obj _ => "[object Object]"

end

example : jsTrim "  hi there " = "hi there" := by decide
example : jsIncludes "abcdef" "cde" = true := by decide
example : jsIncludes "abcdef" "cf" = false := by decide
example : jsToLower "SuCCess" = "success" := by decide
example : jsString (.arr [.num 1, .null, .str "a"]) = "1,,a" := by rfl
example : jsMapSet [("a", 1), ("b", 2)] "a" 7 = [("a", 7), ("b", 2)] := by decide
example : jsMapSet [("a", 1)] "b" 2 = [("a", 1), ("b", 2)] := by decide
example : jsMapDelete [("a", 1), ("b", 2)] "a" = [("b", 2)] := by decide

/-! ## The `ProviderConnection` class (stomp-worker-enhanced.js, lines 21-298) -/

/-- `statistics.mode`: `'idle' | 'snapshot' | 'realtime'`. -/
inductive Mode where
  | idle : Mode
  | snapshot : Mode
  | realtime : Mode
deriving DecidableEq, Repr

/-- The `statistics` record of a `ProviderConnection`. -/
structure Statistics where
  snapshotRowsReceived : Nat
  updateRowsReceived : Nat
  connectionCount : Nat
  disconnectionCount : Nat
  isConnected : Bool
  bytesReceived : Nat
  mode : Mode
deriving DecidableEq, Repr

/-- The provider configuration object handed to `new ProviderConnection`.
Absent (`undefined`) string fields are `none`; the code also treats the empty
string as absent through JS falsiness. -/
structure Config where
  websocketUrl : String
  dataType : Option String
  messageRate : Option Nat
  batchSize : Option Nat
  snapshotEndToken : Option String
  keyColumn : Option String
deriving DecidableEq, Repr

/-- JS truthiness of an optional string field (`undefined` and `""` are
falsy). -/
def strTruthy : Option String → Bool
  | none => false
  | some s => !(s = "")

/-- `this.config.keyColumn || 'positionId'`. -/
def Config.keyColumnOrDefault (cfg : Config) : String :=
  match cfg.keyColumn with
  | some s => if s = "" then "positionId" else s
  | none => "positionId"

/-- The snapshot cache: a JS `Map` from stringified key to latest record. -/
abbrev SnapMap : Type := List (String × Json)

/-- `Array.from(this.snapshot.values())`. -/
def snapValues (m : SnapMap) : List Json :=
  m.map Prod.snd

/-- The mutable state of one `ProviderConnection`.  The STOMP client and
subscription handles are tracked as booleans (`connection !== null`,
`subscription !== null`); `activateCount` instruments how many times
`connection.activate()` has been called, so that "no second transport
connection" is expressible. -/
structure ProviderConnection where
  providerId : String
  config : Config
  snapshot : SnapMap
  subscribers : List String
  hasConnection : Bool
  hasSubscription : Bool
  activateCount : Nat
  statistics : Statistics
  isConnecting : Bool
  isSnapshotComplete : Bool
  snapshotStartTime : Nat

/-- The constructor `new ProviderConnection(providerId, config)`. -/
def ProviderConnection.init (providerId : String) (config : Config) :
    ProviderConnection where
  providerId := providerId
  config := config
  snapshot := []
  subscribers := []
  hasConnection := false
  hasSubscription := false
  activateCount := 0
  statistics :=
    { snapshotRowsReceived := 0
      updateRowsReceived := 0
      connectionCount := 0
      disconnectionCount := 0
      isConnected := false
      bytesReceived := 0
      mode := .idle }
  isConnecting := false
  isSnapshotComplete := false
  snapshotStartTime := 0

/-- `ProviderConnection.isEndToken` (lines 71-79): with no configured token
the answer is `false`; otherwise the trimmed, lower-cased body is searched
for the lower-cased token or for the literal fallback `"success"`. -/
def ProviderConnection.isEndToken (c : ProviderConnection)
    (messageBody : String) : Bool :=
  match c.config.snapshotEndToken with
  | none => false
  | some tok =>
    if tok = "" then false
    else
      let trimmedBody := jsToLower (jsTrim messageBody)
      let endToken := jsToLower tok
      jsIncludes trimmedBody endToken || jsIncludes trimmedBody "success"

/-- Events a `ProviderConnection` posts to its subscriber ports. -/
inductive WorkerEvent where
  | connected (providerId clientId : String)
  | disconnected (providerId : String)
  | data (providerId : String) (records : List Json) (isSnapshot : Bool)
  | snapshotComplete (providerId : String) (rowCount : Nat) (duration : Nat)
  | errorEvent (providerId : String) (message : String)

/-- Is the event a `data` broadcast? -/
def WorkerEvent.isData : WorkerEvent → Bool
  | .data _ _ _ => true
  | _ => false

/-- Is the event a `snapshot-complete` broadcast? -/
def WorkerEvent.isSnapshotComplete : WorkerEvent → Bool
  | .snapshotComplete _ _ _ => true
  | _ => false

/-- `broadcast(message)` (lines 282-292): deliver one message to every
subscriber port (the dead-port eviction branch is unreachable in the model,
where `postMessage` cannot throw). -/
def ProviderConnection.broadcastTo (c : ProviderConnection)
    (e : WorkerEvent) : List (String × WorkerEvent) :=
  c.subscribers.map fun portId => (portId, e)

/-- `connect()` (lines 82-179), up to its first suspension: guarded against a
second attempt; otherwise it creates a STOMP client, installs the callbacks
and calls `connection.activate()`.  The `onConnect`/`onDisconnect`/error
callbacks are modelled below as separate transport events. -/
def ProviderConnection.connect (c : ProviderConnection) : ProviderConnection :=
  if c.isConnecting || c.statistics.isConnected then c
  else
    { c with
      isConnecting := true
      hasConnection := true
      activateCount := c.activateCount + 1 }

/-- The `onConnect` transport callback (lines 108-137): mark connected, flip
to snapshot mode, clear the snapshot cache and row counter, broadcast
`connected`, subscribe to the listener topic and publish the trigger. -/
def ProviderConnection.onConnect (c : ProviderConnection) (now : Nat)
    (clientId : String) : ProviderConnection × List (String × WorkerEvent) :=
  let c' : ProviderConnection :=
    { c with
      statistics :=
        { c.statistics with
          isConnected := true
          connectionCount := c.statistics.connectionCount + 1
          mode := .snapshot
          snapshotRowsReceived := 0 }
      isConnecting := false
      snapshotStartTime := now
      snapshot := []
      isSnapshotComplete := false
      hasSubscription := true }
  (c', c'.broadcastTo (.connected c.providerId clientId))

/-- The `onStompError` transport callback (lines 140-148): broadcast an error
event built from the frame's message header; no state change. -/
def ProviderConnection.onStompError (c : ProviderConnection)
    (headerMessage : Option String) :
    ProviderConnection × List (String × WorkerEvent) :=
  let errorMsg := match headerMessage with
    | some m => if m = "" then "STOMP connection error" else m
    | none => "STOMP connection error"
  (c, c.broadcastTo (.errorEvent c.providerId errorMsg))

/-- The `onWebSocketError` transport callback (lines 150-157). -/
def ProviderConnection.onWebSocketError (c : ProviderConnection) :
    ProviderConnection × List (String × WorkerEvent) :=
  (c, c.broadcastTo (.errorEvent c.providerId "WebSocket connection error"))

/-- The `onDisconnect` transport callback (lines 159-169): mark disconnected,
back to idle mode, broadcast `disconnected`.  The snapshot cache is not
touched. -/
def ProviderConnection.onDisconnect (c : ProviderConnection) :
    ProviderConnection × List (String × WorkerEvent) :=
  let c' : ProviderConnection :=
    { c with
      statistics :=
        { c.statistics with
          isConnected := false
          disconnectionCount := c.statistics.disconnectionCount + 1
          mode := .idle }
      isConnecting := false }
  (c', c'.broadcastTo (.disconnected c.providerId))

/-- One iteration of the `updates.forEach` body of `applyUpdatesToSnapshot`
(lines 246-251).  `none` models the `TypeError` thrown by `update[keyColumn]`
when `update` is `null`; otherwise the record is upserted under its
stringified key when that key is neither `undefined` nor `null`. -/
def applyOneUpdate (keyColumn : String) (m : SnapMap) (update : Json) :
    Option SnapMap :=
  if update.isNull then none
  else
    match jsIndex update keyColumn with
    | none => some m
    | some v =>
      if v.isNull then some m else some (jsMapSet m (jsString v) update)

/-- `applyUpdatesToSnapshot(updates)` (lines 243-254) on the cache alone.
The boolean records whether the `forEach` ran to completion (`false`: a
`TypeError` escaped after the preceding records were already applied). -/
def applyUpdatesToSnapshot (keyColumn : String) :
    SnapMap → List Json → SnapMap × Bool
  | m, [] => (m, true)
  | m, u :: rest =>
    match applyOneUpdate keyColumn m u with
    | none => (m, false)
    | some m' => applyUpdatesToSnapshot keyColumn m' rest

/-- `Array.isArray(data) ? data : [data]` (line 212). -/
def jsToPositions : Json → List Json
  | .arr elems => elems
  | d => [d]

/-- The `TypeError` message for a property read on `null` (V8 wording). -/
def nullReadErrorMessage (keyColumn : String) : String :=
  "Cannot read properties of null (reading " ++ keyColumn ++ ")"

/-- `handleMessage(message)` (lines 182-240), parameterised by the
`JSON.parse` oracle and the current `Date.now()`:  trim the body and count
its bytes; during the snapshot phase a body matching `isEndToken` completes
the snapshot; otherwise the body is parsed (a parse failure is silently
dropped), the row counter of the current phase is advanced, the records are
applied to the cache and broadcast — unless a `null` record aborts the
application, in which case the outer `catch` broadcasts an error event. -/
def ProviderConnection.handleMessage (c : ProviderConnection)
    (parse : String → Option Json) (now : Nat) (rawBody : String) :
    ProviderConnection × List (String × WorkerEvent) :=
  let messageBody := jsTrim rawBody
  let c1 : ProviderConnection :=
    { c with
      statistics :=
        { c.statistics with
          bytesReceived := c.statistics.bytesReceived + messageBody.length } }
  if !c1.isSnapshotComplete && c1.isEndToken messageBody then
    let duration := now - c1.snapshotStartTime
    let c2 : ProviderConnection :=
      { c1 with
        isSnapshotComplete := true
        statistics := { c1.statistics with mode := .realtime } }
    (c2, c2.broadcastTo
      (.snapshotComplete c2.providerId c2.statistics.snapshotRowsReceived
        duration))
  else
    match parse messageBody with
    | none => (c1, [])
    | some data =>
      let positions := jsToPositions data
      let stats' :=
        if c1.isSnapshotComplete then
          { c1.statistics with
            updateRowsReceived :=
              c1.statistics.updateRowsReceived + positions.length }
        else
          { c1.statistics with
            snapshotRowsReceived :=
              c1.statistics.snapshotRowsReceived + positions.length }
      let applied := applyUpdatesToSnapshot c1.config.keyColumnOrDefault
        c1.snapshot positions
      let c2 : ProviderConnection :=
        { c1 with statistics := stats', snapshot := applied.1 }
      if applied.2 then
        (c2, c2.broadcastTo (.data c2.providerId positions
          (!c2.isSnapshotComplete)))
      else
        (c2, c2.broadcastTo (.errorEvent c2.providerId
          (nullReadErrorMessage c1.config.keyColumnOrDefault)))

/-- `disconnect()` (lines 257-279): drop the subscription and client handles,
mark disconnected and idle.  The snapshot cache is not touched. -/
def ProviderConnection.disconnectSelf (c : ProviderConnection) :
    ProviderConnection :=
  { c with
    hasSubscription := false
    hasConnection := false
    statistics := { c.statistics with isConnected := false, mode := .idle }
    isConnecting := false }

/-- `getSnapshot()` (lines 295-297). -/
def ProviderConnection.getSnapshot (c : ProviderConnection) : List Json :=
  snapValues c.snapshot

/-! ## Worker-global dispatch (stomp-worker-enhanced.js, lines 300-457) -/

/-- The worker's global registries: `providers` and `ports` (ports are
identified by their generated port ids). -/
structure WorkerState where
  providers : List (String × ProviderConnection)
  ports : List String

/-- The kind of a port request, with its type-specific payload.  `other`
carries the unrecognized `type` string. -/
inductive ReqKind where
  | connectReq (config : Config)
  | disconnectReq
  | refreshReq
  | getSnapshotReq
  | getStatisticsReq
  | other (typeName : String)

/-- The destructured fields `{ id, type, providerId, config }` of a port
message (`id` is `none` when the sender supplied none). -/
structure PortRequest where
  id : Option String
  providerId : String
  kind : ReqKind

/-- Messages the worker posts back on a port: pushed events, `response`
envelopes (whose payload is one of `success: true`, `data`, `statistics`,
the latter possibly `null`), and `error` envelopes. -/
inductive PortMsg where
  | push (e : WorkerEvent)
  | responseSuccess (id : Option String)
  | responseData (id : Option String) (records : List Json)
  | responseStatistics (id : Option String) (stats : Option Statistics)
  | errorResponse (id : Option String) (message : String)

/-- Is the message a pushed (broadcast-style) event rather than a
request/response envelope? -/
def PortMsg.isPush : PortMsg → Bool
  | .push _ => true
  | _ => false

/-- Does the message carry a populated `error` field? -/
def PortMsg.isError : PortMsg → Bool
  | .errorResponse _ _ => true
  | _ => false

/-- `provider.subscribers.set(portId, port)`: the subscriber map keyed by
port id, with `Map.set` semantics (a re-registration of the same port id
leaves the set unchanged). -/
def subscribersAdd (subs : List String) (portId : String) : List String :=
  if subs.contains portId then subs else subs ++ [portId]

/-- `handleConnect(portId, port, providerId, config, messageId)` (lines
376-419): create the provider lazily, register the port as subscriber, start
connecting when neither connected nor connecting, replay state and cached
data when already connected, and acknowledge with a `response` envelope. -/
def handleConnect (st : WorkerState) (portId providerId : String)
    (config : Config) (messageId : Option String) :
    WorkerState × List (String × PortMsg) :=
  let provider := match jsMapGet st.providers providerId with
    | some p => p
    | none => ProviderConnection.init providerId config
  let provider :=
    { provider with subscribers := subscribersAdd provider.subscribers portId }
  if !provider.statistics.isConnected && !provider.isConnecting then
    let provider := provider.connect
    ({ st with providers := jsMapSet st.providers providerId provider },
     [(portId, .responseSuccess messageId)])
  else if provider.statistics.isConnected then
    let stateMsgs : List (String × PortMsg) :=
      (portId, .push (.connected providerId providerId)) ::
        (if provider.snapshot.length > 0 then
          [(portId, .push (.data providerId provider.getSnapshot false))]
        else [])
    ({ st with providers := jsMapSet st.providers providerId provider },
     stateMsgs ++ [(portId, .responseSuccess messageId)])
  else
    ({ st with providers := jsMapSet st.providers providerId provider },
     [(portId, .responseSuccess messageId)])

/-- `handleDisconnect(providerId)` (lines 421-428): when the provider exists,
call its `disconnect()` and drop it from the registry — unconditionally,
whatever its subscriber set holds. -/
def handleDisconnect (st : WorkerState) (providerId : String) : WorkerState :=
  match jsMapGet st.providers providerId with
  | none => st
  | some provider =>
    let _ := provider.disconnectSelf
    { st with providers := jsMapDelete st.providers providerId }

/-- `handleGetSnapshot(providerId)` (lines 444-449). -/
def handleGetSnapshot (st : WorkerState) (providerId : String) : List Json :=
  match jsMapGet st.providers providerId with
  | none => []
  | some provider => provider.getSnapshot

/-- `handleGetStatistics(providerId)` (lines 452-457): `null` (`none`) for an
unknown provider. -/
def handleGetStatistics (st : WorkerState) (providerId : String) :
    Option Statistics :=
  match jsMapGet st.providers providerId with
  | none => none
  | some provider => some provider.statistics

/-- `handlePortMessage(portId, port, message)` (lines 329-373): dispatch on
`message.type`; each branch posts exactly one `response`/`error` envelope
back to the requesting port (plus, for `connect`, the state-replay messages
of `handleConnect`).  A `refresh` on an unknown provider throws
`'Provider not connected'`, which the surrounding `catch` turns into an
`error` envelope; a known provider is disconnected and reconnected. -/
def handlePortMessage (st : WorkerState) (portId : String)
    (req : PortRequest) : WorkerState × List (String × PortMsg) :=
  match req.kind with
  | .connectReq config => handleConnect st portId req.providerId config req.id
  | .disconnectReq =>
    (handleDisconnect st req.providerId,
     [(portId, .responseSuccess req.id)])
  | .refreshReq =>
    match jsMapGet st.providers req.providerId with
    | none => (st, [(portId, .errorResponse req.id "Provider not connected")])
    | some provider =>
      let provider := provider.disconnectSelf.connect
      ({ st with providers := jsMapSet st.providers req.providerId provider },
       [(portId, .responseSuccess req.id)])
  | .getSnapshotReq =>
    (st, [(portId, .responseData req.id (handleGetSnapshot st req.providerId))])
  | .getStatisticsReq =>
    (st, [(portId,
      .responseStatistics req.id (handleGetStatistics st req.providerId))])
  | .other typeName =>
    (st, [(portId, .errorResponse req.id ("Unknown message type: " ++ typeName))])

/-- A transport frame arriving for one provider: the registry hands it to
that provider's `handleMessage` and stores the updated connection. -/
def workerFrame (st : WorkerState) (providerId : String)
    (parse : String → Option Json) (now : Nat) (rawBody : String) :
    WorkerState × List (String × WorkerEvent) :=
  match jsMapGet st.providers providerId with
  | none => (st, [])
  | some provider =>
    let (provider', events) := provider.handleMessage parse now rawBody
    ({ st with providers := jsMapSet st.providers providerId provider' },
     events)

/-! ## Consumer-side request correlation (public-api.ts, lines 882-966) -/

/-- The consumer service state relevant to request/response correlation: the
`pendingMessages` map, modelled by its key set in insertion order (the stored
value is the `(resolve, reject)` pair of the promise, represented here by the
settlement outputs below). -/
structure ClientState where
  pendingMessages : List String

/-- `pendingMessages.set(messageId, handlers)`. -/
def pendingAdd (pending : List String) (messageId : String) : List String :=
  if messageId ∈ pending then pending else pending ++ [messageId]

/-- `pendingMessages.delete(messageId)`. -/
def pendingRemove (pending : List String) (messageId : String) : List String :=
  pending.filter fun x => !(x = messageId)

/-- The inputs the correlation logic reacts to: `sendWorkerMessage` posting a
fresh request, a worker message arriving (`id` is `none` for broadcast
envelopes, and `error` is the populated error field if any), and the
10-second `setTimeout` callback of a request firing. -/
inductive ClientInput where
  | send (messageId : String)
  | workerMsg (id : Option String) (error : Option String)
  | timeoutFire (messageId : String)

/-- A settlement of a consumer-side promise. -/
inductive Settlement where
  | resolved (messageId : String)
  | rejected (messageId : String) (reason : String)

/-- Does the settlement settle the promise of `messageId`? -/
def Settlement.settles (messageId : String) : Settlement → Bool
  | .resolved i => i = messageId
  | .rejected i _ => i = messageId

/-- One step of the correlation logic.  `send` registers the pending entry
(`sendWorkerMessage`, lines 896-906); a worker message whose `id` is pending
deletes the entry and settles the promise, rejecting iff the `error` field is
populated (`handleWorkerMessage`, lines 917-927), while any other worker
message falls through to broadcast handling and settles nothing; the timeout
callback (lines 899-904) settles with a timeout error only when the entry is
still pending. -/
def clientStep (st : ClientState) (i : ClientInput) :
    ClientState × List Settlement :=
  match i with
  | .send messageId =>
    ({ pendingMessages := pendingAdd st.pendingMessages messageId }, [])
  | .workerMsg none _ => (st, [])
  | .workerMsg (some id) error =>
    if id ∈ st.pendingMessages then
      ({ pendingMessages := pendingRemove st.pendingMessages id },
       [match error with
        | some e => .rejected id e
        | none => .resolved id])
    else (st, [])
  | .timeoutFire messageId =>
    if messageId ∈ st.pendingMessages then
      ({ pendingMessages := pendingRemove st.pendingMessages messageId },
       [.rejected messageId "Message timeout"])
    else (st, [])

/-- Run the correlation logic over a sequence of inputs, collecting every
settlement. -/
def clientRun (st : ClientState) : List ClientInput →
    ClientState × List Settlement
  | [] => (st, [])
  | i :: rest =>
    let (st', out) := clientStep st i
    let (st'', outs) := clientRun st' rest
    (st'', out ++ outs)

/-- How many settlements in `outs` settle the promise of `messageId`. -/
def settleCount (messageId : String) (outs : List Settlement) : Nat :=
  (outs.filter (Settlement.settles messageId)).length

/-- The ids of the `send` inputs of a trace, in order. -/
def sendIds : List ClientInput → List String
  | [] => []
  | ClientInput.send messageId :: rest => messageId :: sendIds rest
  | ClientInput.workerMsg _ _ :: rest => sendIds rest
  | ClientInput.timeoutFire _ :: rest => sendIds rest

/-- Fold `handleMessage` over a sequence of `(now, body)` frames delivered to
one provider connection, collecting every broadcast. -/
def runFrames (c : ProviderConnection) (parse : String → Option Json) :
    List (Nat × String) → ProviderConnection × List (String × WorkerEvent)
  | [] => (c, [])
  | (now, body) :: rest =>
    let (c', out) := c.handleMessage parse now body
    let (c'', outs) := runFrames c' parse rest
    (c'', out ++ outs)

/-! ## Association-map lemmas -/

theorem jsMapKeys_nil {α : Type} : jsMapKeys ([] : List (String × α)) = [] := rfl

theorem jsMapKeys_cons {α : Type} (k : String) (v : α) (m : List (String × α)) :
    jsMapKeys ((k, v) :: m) = k :: jsMapKeys m := rfl

theorem jsMapKeys_jsMapSet {α : Type} (m : List (String × α)) (k : String)
    (v : α) :
    jsMapKeys (jsMapSet m k v) =
      if k ∈ jsMapKeys m then jsMapKeys m else jsMapKeys m ++ [k] := by
  induction m with
  | nil => simp [jsMapSet, jsMapKeys]
  | cons hd tl ih =>
    obtain ⟨k', v'⟩ := hd
    by_cases hk : k' = k
    · subst hk
      simp [jsMapSet, jsMapKeys_cons]
    · rw [jsMapSet]
      rw [if_neg hk, jsMapKeys_cons, jsMapKeys_cons, ih]
      by_cases hmem : k ∈ jsMapKeys tl
      · rw [if_pos hmem, if_pos (by simp [hmem])]
      · have hn : k ∉ k' :: jsMapKeys tl := by
          simp only [List.mem_cons]
          push_neg
          exact ⟨fun h => hk h.symm, hmem⟩
        rw [if_neg hmem, if_neg hn]
        rfl

theorem jsMapSet_length {α : Type} (m : List (String × α)) (k : String)
    (v : α) :
    (jsMapSet m k v).length =
      if k ∈ jsMapKeys m then m.length else m.length + 1 := by
  have hm : ∀ (l : List (String × α)), l.length = (jsMapKeys l).length := by
    intro l
    simp [jsMapKeys]
  rw [hm, hm, jsMapKeys_jsMapSet]
  by_cases hmem : k ∈ jsMapKeys m
  · rw [if_pos hmem, if_pos hmem]
  · rw [if_neg hmem, if_neg hmem]
    simp

theorem jsMapGet_jsMapSet_self {α : Type} (m : List (String × α)) (k : String)
    (v : α) :
    jsMapGet (jsMapSet m k v) k = some v := by
  induction m with
  | nil => simp [jsMapSet, jsMapGet]
  | cons hd tl ih =>
    obtain ⟨k', v'⟩ := hd
    by_cases hk : k' = k
    · subst hk
      simp [jsMapSet, jsMapGet]
    · simp [jsMapSet, jsMapGet, hk, ih]

theorem jsMapGet_eq_none_of_not_mem {α : Type} (m : List (String × α))
    (k : String) (h : k ∉ jsMapKeys m) :
    jsMapGet m k = none := by
  induction m with
  | nil => rfl
  | cons hd tl ih =>
    obtain ⟨k', v'⟩ := hd
    rw [jsMapKeys_cons] at h
    simp only [List.mem_cons] at h
    push_neg at h
    rw [jsMapGet, if_neg (Ne.symm h.1)]
    exact ih h.2

theorem jsMapGet_jsMapDelete_self {α : Type} (m : List (String × α))
    (k : String) (hnd : (jsMapKeys m).Nodup) :
    jsMapGet (jsMapDelete m k) k = none := by
  induction m with
  | nil => rfl
  | cons hd tl ih =>
    obtain ⟨k', v'⟩ := hd
    rw [jsMapKeys_cons, List.nodup_cons] at hnd
    by_cases hk : k' = k
    · subst hk
      rw [jsMapDelete, if_pos rfl]
      exact jsMapGet_eq_none_of_not_mem tl k' hnd.1
    · rw [jsMapDelete, if_neg hk, jsMapGet, if_neg hk]
      exact ih hnd.2

/-! ## Concrete fixtures for witnesses and counterexamples -/

/-- A configuration with end-token `"end"` and default key column. -/
def cfgEnd : Config where
  websocketUrl := "ws://localhost/feed"
  dataType := some "positions"
  messageRate := some 1000
  batchSize := none
  snapshotEndToken := some "end"
  keyColumn := none

/-- Statistics of a session that is connected and mid-snapshot. -/
def statsConnected : Statistics where
  snapshotRowsReceived := 2
  updateRowsReceived := 0
  connectionCount := 1
  disconnectionCount := 0
  isConnected := true
  bytesReceived := 40
  mode := .snapshot

/-- A connected provider session with two attached consumers and one cached
record. -/
def provTwoConsumers : ProviderConnection where
  providerId := "p1"
  config := cfgEnd
  snapshot := [("1", .obj [("positionId", .str "1"), ("v", .num 10)])]
  subscribers := ["port-1", "port-2"]
  hasConnection := true
  hasSubscription := true
  activateCount := 1
  statistics := statsConnected
  isConnecting := false
  isSnapshotComplete := false
  snapshotStartTime := 100

/-- Worker registry holding exactly the two-consumer session above. -/
def workerTwoConsumers : WorkerState where
  providers := [("p1", provTwoConsumers)]
  ports := ["port-1", "port-2"]

/-- A parse oracle recognising one object and one array body, failing on
everything else — a stand-in for `JSON.parse` on concrete inputs. -/
def parseFixture : String → Option Json :=
  fun s =>
    if s = "\x7b\x22positionId\x22:\x229\x22\x7d" then
      some (.obj [("positionId", .str "9")])
    else if s = "[null]" then some (.arr [.null])
    else none

/-! ## Claim C1 -/

/-- Counterexample to claim C1: in a registry holding one session for
provider `"p1"` with the two consumers `"port-1"` and `"port-2"` attached, a
single `disconnect` request from `"port-1"` drops the session from the
registry outright, and a subsequent transport frame for `"p1"` is delivered
to nobody — the remaining consumer is not "still attached and receiving
broadcasts", and teardown did not wait for the consumer set to become
empty. -/
theorem disconnect_one_of_two_consumers_drops_session :
    provTwoConsumers.subscribers = ["port-1", "port-2"]
    ∧ (handlePortMessage workerTwoConsumers "port-1"
        { id := some "d1", providerId := "p1",
          kind := .disconnectReq }).1.providers = []
    ∧ (workerFrame
        (handlePortMessage workerTwoConsumers "port-1"
          { id := some "d1", providerId := "p1", kind := .disconnectReq }).1
        "p1" parseFixture 200 "\x7b\x22positionId\x22:\x229\x22\x7d").2 = [] := by
  refine ⟨rfl, rfl, rfl⟩

/-- Claim C1 (amended): a `disconnect` request for an existing provider tears
the session down unconditionally — the transport is disconnected and the
entry is dropped from the registry — regardless of how many consumers are
still attached; the consumer set is never consulted. -/
theorem handleDisconnect_unconditional_teardown (st : WorkerState)
    (providerId : String) (p : ProviderConnection)
    (hget : jsMapGet st.providers providerId = some p) :
    handleDisconnect st providerId
      = { st with providers := jsMapDelete st.providers providerId }
    ∧ p.disconnectSelf.statistics.isConnected = false
    ∧ p.disconnectSelf.hasConnection = false
    ∧ p.disconnectSelf.hasSubscription = false
    ∧ ((jsMapKeys st.providers).Nodup →
        jsMapGet (handleDisconnect st providerId).providers providerId
          = none) := by
  refine ⟨?_, rfl, rfl, rfl, ?_⟩
  · rw [handleDisconnect, hget]
  · intro hnd
    rw [handleDisconnect, hget]
    exact jsMapGet_jsMapDelete_self st.providers providerId hnd

/-- Witness for the amended claim C1 at the two-consumer fixture. -/
theorem handleDisconnect_unconditional_teardown_witness :
    jsMapGet workerTwoConsumers.providers "p1" = some provTwoConsumers
    ∧ (handleDisconnect workerTwoConsumers "p1"
        = { workerTwoConsumers with
            providers := jsMapDelete workerTwoConsumers.providers "p1" }
      ∧ provTwoConsumers.disconnectSelf.statistics.isConnected = false
      ∧ provTwoConsumers.disconnectSelf.hasConnection = false
      ∧ provTwoConsumers.disconnectSelf.hasSubscription = false
      ∧ ((jsMapKeys workerTwoConsumers.providers).Nodup →
          jsMapGet (handleDisconnect workerTwoConsumers "p1").providers "p1"
            = none)) :=
  ⟨rfl, handleDisconnect_unconditional_teardown workerTwoConsumers "p1"
    provTwoConsumers rfl⟩

/-! ## Claim C2 -/

/-- Counterexample to claim C2: a `get-statistics` request with id `"x1"` for
a provider id unknown to an empty registry is answered by exactly one
`response` envelope with the same id — but its `statistics` field is `null`
and its error field is not populated. -/
theorem get_statistics_unknown_provider_no_error_field :
    handlePortMessage { providers := [], ports := [] } "port-1"
      { id := some "x1", providerId := "nope", kind := .getStatisticsReq }
      = ({ providers := [], ports := [] },
         [("port-1", .responseStatistics (some "x1") none)])
    ∧ PortMsg.isError (.responseStatistics (some "x1") none) = false := by
  exact ⟨rfl, rfl⟩

/-- Claim C2 (amended): a `get-statistics` request referencing a provider id
unknown to the registry is answered synchronously by exactly one `response`
envelope carrying the same correlation id, whose `statistics` payload is
`null`; no error field is populated, nothing is broadcast, and the registry
is left unchanged — no crash, no hanging request. -/
theorem get_statistics_unknown_provider_single_response (st : WorkerState)
    (portId providerId : String) (mid : Option String)
    (hget : jsMapGet st.providers providerId = none) :
    handlePortMessage st portId
      { id := mid, providerId := providerId, kind := .getStatisticsReq }
      = (st, [(portId, .responseStatistics mid none)]) := by
  rw [handlePortMessage]
  rw [handleGetStatistics, hget]

/-- Witness for the amended claim C2 on the empty registry. -/
theorem get_statistics_unknown_provider_single_response_witness :
    jsMapGet (WorkerState.mk [] []).providers "nope" = none
    ∧ handlePortMessage (WorkerState.mk [] []) "port-1"
        { id := some "x1", providerId := "nope", kind := .getStatisticsReq }
        = (WorkerState.mk [] [],
           [("port-1", .responseStatistics (some "x1") none)]) :=
  ⟨rfl, get_statistics_unknown_provider_single_response
    (WorkerState.mk [] []) "port-1" "nope" (some "x1") rfl⟩

/-! ## Claim C3 -/

/-- Claim C3: with a configured (non-empty) end-token, any frame body whose
trimmed, case-folded text contains the (case-folded) token — or contains the
literal fallback substring `"success"` — is classified as end-of-snapshot by
`isEndToken`. -/
theorem isEndToken_of_contains (c : ProviderConnection) (tok body : String)
    (htok : c.config.snapshotEndToken = some tok) (hne : tok ≠ "")
    (hcontains : jsIncludes (jsToLower (jsTrim body)) (jsToLower tok) = true
      ∨ jsIncludes (jsToLower (jsTrim body)) "success" = true) :
    c.isEndToken body = true := by
  simp only [ProviderConnection.isEndToken, htok]
  rw [if_neg hne]
  rcases hcontains with h | h <;> simp [h]

/-- Witness for claim C3: token `"end"`, body `"Rows done: END"` (matched
despite the different case). -/
theorem isEndToken_of_contains_witness :
    (provTwoConsumers.config.snapshotEndToken = some "end"
      ∧ ("end" : String) ≠ ""
      ∧ jsIncludes (jsToLower (jsTrim "Rows done: END")) (jsToLower "end")
          = true)
    ∧ provTwoConsumers.isEndToken "Rows done: END" = true :=
  ⟨⟨rfl, by decide, by decide⟩,
   isEndToken_of_contains provTwoConsumers "end" "Rows done: END" rfl
     (by decide) (Or.inl (by decide))⟩

/-! ## Key-preservation lemmas for the snapshot cache -/

theorem mem_jsMapKeys_jsMapSet {α : Type} (m : List (String × α))
    (k' : String) (v : α) (k : String) (h : k ∈ jsMapKeys m) :
    k ∈ jsMapKeys (jsMapSet m k' v) := by
  rw [jsMapKeys_jsMapSet]
  split
  · exact h
  · exact List.mem_append_left _ h

/-- A successful `applyOneUpdate` either leaves the cache alone or upserts
the record under its stringified key. -/
theorem applyOneUpdate_some_cases (keyColumn : String) (m : SnapMap)
    (u : Json) (m' : SnapMap)
    (hap : applyOneUpdate keyColumn m u = some m') :
    m' = m ∨ ∃ v, jsIndex u keyColumn = some v ∧ v.isNull = false
      ∧ m' = jsMapSet m (jsString v) u := by
  rw [applyOneUpdate] at hap
  split at hap
  · cases hap
  · revert hap
    cases hj : jsIndex u keyColumn with
    | none =>
      intro hap
      cases hap
      exact Or.inl rfl
    | some v =>
      intro hap
      have hap2 : (if v.isNull = true then some m
          else some (jsMapSet m (jsString v) u)) = some m' := hap
      by_cases hnull : v.isNull = true
      · rw [if_pos hnull] at hap2
        cases hap2
        exact Or.inl rfl
      · rw [if_neg hnull] at hap2
        cases hap2
        exact Or.inr ⟨v, rfl, Bool.eq_false_iff.mpr hnull, rfl⟩

/-- An update that is not JSON `null` never aborts `applyOneUpdate`. -/
theorem applyOneUpdate_isSome (keyColumn : String) (m : SnapMap) (u : Json)
    (hnull : u.isNull = false) :
    (applyOneUpdate keyColumn m u).isSome = true := by
  rw [applyOneUpdate, if_neg (by simp [hnull])]
  cases hj : jsIndex u keyColumn with
  | none => rfl
  | some v =>
    have : (match (some v : Option Json) with
        | none => some m
        | some v => if v.isNull = true then some m
            else some (jsMapSet m (jsString v) u))
        = if v.isNull = true then some m
            else some (jsMapSet m (jsString v) u) := rfl
    rw [this]
    by_cases hv : v.isNull = true
    · rw [if_pos hv]
      rfl
    · rw [if_neg hv]
      rfl

theorem mem_jsMapKeys_applyUpdates (keyColumn : String) (us : List Json)
    (m : SnapMap) (k : String) (h : k ∈ jsMapKeys m) :
    k ∈ jsMapKeys (applyUpdatesToSnapshot keyColumn m us).1 := by
  induction us generalizing m with
  | nil => exact h
  | cons u rest ih =>
    rw [applyUpdatesToSnapshot]
    cases hap : applyOneUpdate keyColumn m u with
    | none => exact h
    | some m' =>
      apply ih
      rcases applyOneUpdate_some_cases keyColumn m u m' hap with
        heq | ⟨v, _, _, heq⟩
      · rw [heq]
        exact h
      · rw [heq]
        exact mem_jsMapKeys_jsMapSet _ _ _ _ h

/-- `handleMessage` never removes a key from the snapshot cache: frames only
add or overwrite entries. -/
theorem handleMessage_snapshot_superset (c : ProviderConnection)
    (parse : String → Option Json) (now : Nat) (body : String) (k : String)
    (h : k ∈ jsMapKeys c.snapshot) :
    k ∈ jsMapKeys (c.handleMessage parse now body).1.snapshot := by
  simp only [ProviderConnection.handleMessage]
  split
  · exact h
  · split
    · exact h
    · split <;> exact mem_jsMapKeys_applyUpdates _ _ _ _ h

/-! ## Claim C7 -/

/-- Claim C7: the snapshot cache is cleared exactly at the start of each
snapshot cycle — the `onConnect` transport callback empties it and resets the
snapshot row counter — and is not cleared anywhere else: the `onDisconnect`
and error callbacks and the explicit `disconnect()` leave the cache intact
(so `getSnapshot()` still serves the last known records), and ordinary frame
processing never removes a key. -/
theorem snapshot_cache_lifecycle (c : ProviderConnection) (now : Nat)
    (clientId : String) (hdr : Option String) :
    (c.onConnect now clientId).1.snapshot = []
    ∧ (c.onConnect now clientId).1.statistics.snapshotRowsReceived = 0
    ∧ (c.onConnect now clientId).1.isSnapshotComplete = false
    ∧ c.onDisconnect.1.snapshot = c.snapshot
    ∧ c.onDisconnect.1.getSnapshot = c.getSnapshot
    ∧ (c.onStompError hdr).1 = c
    ∧ c.onWebSocketError.1 = c
    ∧ c.disconnectSelf.snapshot = c.snapshot
    ∧ ∀ (parse : String → Option Json) (now2 : Nat) (body k : String),
        k ∈ jsMapKeys c.snapshot →
        k ∈ jsMapKeys ((c.handleMessage parse now2 body).1.snapshot) :=
  ⟨rfl, rfl, rfl, rfl, rfl, rfl, rfl, rfl,
   fun parse now2 body k h =>
     handleMessage_snapshot_superset c parse now2 body k h⟩

/-- Witness for claim C7 at the two-consumer fixture (the final conjunct's
membership hypothesis is discharged at the cached key `"1"`). -/
theorem snapshot_cache_lifecycle_witness :
    (provTwoConsumers.onConnect 200 "client-1").1.snapshot = []
    ∧ provTwoConsumers.onDisconnect.1.snapshot = provTwoConsumers.snapshot
    ∧ ("1" ∈ jsMapKeys provTwoConsumers.snapshot
      ∧ "1" ∈ jsMapKeys
          ((provTwoConsumers.handleMessage parseFixture 300
            "\x7b\x22positionId\x22:\x229\x22\x7d").1.snapshot)) :=
  ⟨(snapshot_cache_lifecycle provTwoConsumers 200 "client-1" none).1,
   (snapshot_cache_lifecycle provTwoConsumers 200 "client-1" none).2.2.2.1,
   by decide,
   (snapshot_cache_lifecycle provTwoConsumers 200 "client-1"
      none).2.2.2.2.2.2.2.2 parseFixture 300 "\x7b\x22positionId\x22:\x229\x22\x7d"
      "1" (by decide)⟩

/-! ## Claim C10 -/

/-- With a falsy (`undefined` or empty) `snapshotEndToken`, `isEndToken`
rejects every body, including bodies containing `"success"`. -/
theorem isEndToken_eq_false_of_no_token (c : ProviderConnection)
    (h : strTruthy c.config.snapshotEndToken = false) (body : String) :
    c.isEndToken body = false := by
  cases htok : c.config.snapshotEndToken with
  | none => simp [ProviderConnection.isEndToken, htok]
  | some tok =>
    rw [htok] at h
    simp only [strTruthy, Bool.not_eq_false', decide_eq_true_eq] at h
    simp [ProviderConnection.isEndToken, htok, h]

/-- One `handleMessage` step under a falsy end-token: the snapshot phase is
never left, the config and mode are untouched, and no `snapshot-complete`
event is emitted. -/
theorem handleMessage_no_token_step (c : ProviderConnection)
    (hfalsy : strTruthy c.config.snapshotEndToken = false)
    (hsc : c.isSnapshotComplete = false)
    (parse : String → Option Json) (now : Nat) (body : String) :
    (c.handleMessage parse now body).1.isSnapshotComplete = false
    ∧ (c.handleMessage parse now body).1.config = c.config
    ∧ (c.handleMessage parse now body).1.statistics.mode = c.statistics.mode
    ∧ ∀ pe ∈ (c.handleMessage parse now body).2,
        WorkerEvent.isSnapshotComplete pe.2 = false := by
  obtain ⟨pid, cfg, snap, subs, hc, hs, ac, stats, icn, isc, sst⟩ := c
  simp only at hsc
  subst hsc
  have hend := isEndToken_eq_false_of_no_token
    ⟨pid, cfg, snap, subs, hc, hs, ac, stats, icn, false, sst⟩ hfalsy
  simp only [ProviderConnection.isEndToken] at hend
  simp only [ProviderConnection.handleMessage, ProviderConnection.isEndToken]
  rw [hend (jsTrim body)]
  simp only [Bool.and_false, Bool.false_eq_true, if_false]
  cases hp : parse (jsTrim body) with
  | none =>
    refine ⟨rfl, rfl, rfl, ?_⟩
    intro pe hpe
    simp at hpe
  | some data =>
    refine ⟨?_, ?_, ?_, ?_⟩
    · split <;> first | rfl | (split <;> rfl)
    · split <;> first | rfl | (split <;> rfl)
    · split <;> first | rfl | (split <;> rfl)
    · split
      · intro pe hpe
        exact absurd hpe (List.not_mem_nil pe)
      · split
        all_goals
          intro pe hpe
          simp only [ProviderConnection.broadcastTo, List.mem_map] at hpe
          obtain ⟨x, _, rfl⟩ := hpe
          rfl

/-- `runFrames` under a falsy end-token: the snapshot phase and mode survive
any frame sequence, and no `snapshot-complete` event is ever broadcast. -/
theorem runFrames_no_token (parse : String → Option Json)
    (frames : List (Nat × String)) :
    ∀ c : ProviderConnection,
      strTruthy c.config.snapshotEndToken = false →
      c.isSnapshotComplete = false →
      (runFrames c parse frames).1.isSnapshotComplete = false
      ∧ (runFrames c parse frames).1.statistics.mode = c.statistics.mode
      ∧ ∀ pe ∈ (runFrames c parse frames).2,
          WorkerEvent.isSnapshotComplete pe.2 = false := by
  induction frames with
  | nil =>
    intro c hf hsc
    exact ⟨hsc, rfl, fun pe hpe => absurd hpe (List.not_mem_nil pe)⟩
  | cons f rest ih =>
    intro c hf hsc
    obtain ⟨now, body⟩ := f
    obtain ⟨h1, h2, h3, h4⟩ := handleMessage_no_token_step c hf hsc parse now body
    have hf' : strTruthy
        (c.handleMessage parse now body).1.config.snapshotEndToken = false := by
      rw [h2]
      exact hf
    obtain ⟨g1, g2, g3⟩ := ih (c.handleMessage parse now body).1 hf' h1
    refine ⟨g1, g2.trans h3, ?_⟩
    intro pe hpe
    have hpe2 : pe ∈ (c.handleMessage parse now body).2
        ++ (runFrames (c.handleMessage parse now body).1 parse rest).2 := hpe
    rcases List.mem_append.mp hpe2 with hin | hin
    · exact h4 pe hin
    · exact g3 pe hin

/-- Claim C10: with no configured end-of-snapshot token (absent or empty),
`isEndToken` returns `false` for every body — even bodies containing
`"success"` — so over any sequence of frames the session never leaves the
snapshot phase (`isSnapshotComplete` stays `false`, the mode never flips to
realtime) and no `snapshot-complete` event is ever broadcast. -/
theorem no_end_token_never_completes_snapshot (c : ProviderConnection)
    (hfalsy : c.config.snapshotEndToken = none
      ∨ c.config.snapshotEndToken = some "")
    (hsc : c.isSnapshotComplete = false)
    (parse : String → Option Json) (frames : List (Nat × String)) :
    (∀ body, c.isEndToken body = false)
    ∧ (runFrames c parse frames).1.isSnapshotComplete = false
    ∧ (runFrames c parse frames).1.statistics.mode = c.statistics.mode
    ∧ ∀ pe ∈ (runFrames c parse frames).2,
        WorkerEvent.isSnapshotComplete pe.2 = false := by
  have hf : strTruthy c.config.snapshotEndToken = false := by
    rcases hfalsy with h | h <;> simp [strTruthy, h]
  obtain ⟨g1, g2, g3⟩ := runFrames_no_token parse frames c hf hsc
  exact ⟨isEndToken_eq_false_of_no_token c hf, g1, g2, g3⟩

/-- Witness for claim C10: a fresh session with no end-token processes a
`"Success"` frame and a data frame without ever completing the snapshot. -/
theorem no_end_token_never_completes_snapshot_witness :
    ((ProviderConnection.init "p2" (Config.mk "ws://x" none none none none
        none)).config.snapshotEndToken = none
      ∧ (ProviderConnection.init "p2" (Config.mk "ws://x" none none none none
          none)).isSnapshotComplete = false)
    ∧ (ProviderConnection.init "p2" (Config.mk "ws://x" none none none none
        none)).isEndToken "Success: All 2 records delivered" = false
    ∧ (runFrames (ProviderConnection.init "p2" (Config.mk "ws://x" none none
        none none none)) parseFixture
        [(5, "Success: All 2 records delivered"),
         (6, "\x7b\x22positionId\x22:\x229\x22\x7d")]).1.isSnapshotComplete
        = false :=
  ⟨⟨rfl, rfl⟩,
   (no_end_token_never_completes_snapshot
      (ProviderConnection.init "p2" (Config.mk "ws://x" none none none none
        none)) (Or.inl rfl) rfl parseFixture
      [(5, "Success: All 2 records delivered"),
       (6, "\x7b\x22positionId\x22:\x229\x22\x7d")]).1
      "Success: All 2 records delivered",
   (no_end_token_never_completes_snapshot
      (ProviderConnection.init "p2" (Config.mk "ws://x" none none none none
        none)) (Or.inl rfl) rfl parseFixture
      [(5, "Success: All 2 records delivered"),
       (6, "\x7b\x22positionId\x22:\x229\x22\x7d")]).2.1⟩

/-! ## Claim C4 -/

/-- The head of a `dropWhile` result never satisfies the predicate. -/
theorem dropWhile_head_false {p : Char → Bool} :
    ∀ (l : List Char) (a : Char) (t : List Char),
      l.dropWhile p = a :: t → p a = false := by
  intro l
  induction l with
  | nil =>
    intro a t h
    cases h
  | cons hd tl ih =>
    intro a t h
    by_cases hp : p hd = true
    · rw [List.dropWhile_cons_of_pos hp] at h
      exact ih a t h
    · rw [List.dropWhile_cons_of_neg hp] at h
      cases h
      exact Bool.eq_false_iff.mpr hp

/-- Trimming is idempotent on character lists. -/
theorem jsTrimList_idem (l : List Char) :
    jsTrimList (jsTrimList l) = jsTrimList l := by
  unfold jsTrimList
  set p := Char.isWhitespace with hp
  set u := l.dropWhile p with hu
  set X := u.reverse.dropWhile p with hX
  have hXsuffix : X <:+ u.reverse := by
    rw [hX]
    exact List.dropWhile_suffix p
  have h1 : X.reverse.dropWhile p = X.reverse := by
    cases hw : X.reverse with
    | nil => simp
    | cons a t =>
      obtain ⟨s, hs⟩ := hXsuffix
      have hu2 : u = X.reverse ++ s.reverse := by
        have h3 := congrArg List.reverse hs
        simpa using h3.symm
      rw [hw] at hu2
      have ht2 : l.dropWhile p = a :: (t ++ s.reverse) := by
        rw [← hu]
        simpa using hu2
      have hpa : p a = false := dropWhile_head_false l a _ ht2
      exact List.dropWhile_cons_of_neg (by simp [hpa])
  calc ((X.reverse.dropWhile p).reverse.dropWhile p).reverse
      = (X.reverse.reverse.dropWhile p).reverse := by rw [h1]
    _ = (X.dropWhile p).reverse := by rw [List.reverse_reverse]
    _ = X.reverse := by
        rw [hX]
        rw [List.dropWhile_idempotent]

/-- JS `trim` is idempotent. -/
theorem jsTrim_idem (s : String) : jsTrim (jsTrim s) = jsTrim s :=
  congrArg String.mk (jsTrimList_idem s.data)

/-- Claim C4: in the snapshot phase with a configured end-token, the
end-token check runs before `JSON.parse` is consulted, so a body whose
trimmed, case-folded text contains `"success"` always completes the snapshot
— whatever the parse oracle would have said: the state flips to realtime,
the cache is untouched, the broadcast is exactly one `snapshot-complete`
event per subscriber, and no `data` event is emitted. -/
theorem success_body_completes_snapshot (c : ProviderConnection)
    (parse : String → Option Json) (now : Nat) (body : String) (tok : String)
    (hsc : c.isSnapshotComplete = false)
    (htok : c.config.snapshotEndToken = some tok) (hne : tok ≠ "")
    (hsuccess : jsIncludes (jsToLower (jsTrim body)) "success" = true) :
    (c.handleMessage parse now body).1.isSnapshotComplete = true
    ∧ (c.handleMessage parse now body).1.statistics.mode = Mode.realtime
    ∧ (c.handleMessage parse now body).1.snapshot = c.snapshot
    ∧ (c.handleMessage parse now body).2
        = c.subscribers.map (fun portId => (portId,
            WorkerEvent.snapshotComplete c.providerId
              c.statistics.snapshotRowsReceived (now - c.snapshotStartTime)))
    ∧ ∀ pe ∈ (c.handleMessage parse now body).2,
        WorkerEvent.isData pe.2 = false := by
  have hEnd : c.isEndToken (jsTrim body) = true := by
    apply isEndToken_of_contains c tok (jsTrim body) htok hne
    right
    rw [jsTrim_idem]
    exact hsuccess
  obtain ⟨pid, cfg, snap, subs, hc, hs, ac, stats, icn, isc, sst⟩ := c
  simp only at hsc
  subst hsc
  simp only [ProviderConnection.isEndToken] at hEnd
  simp only [ProviderConnection.handleMessage, ProviderConnection.isEndToken]
  rw [hEnd]
  simp only [Bool.not_false, Bool.and_true]
  rw [if_pos trivial]
  refine ⟨rfl, rfl, rfl, rfl, ?_⟩
  intro pe hpe
  simp only [ProviderConnection.broadcastTo, List.mem_map] at hpe
  obtain ⟨x, _, rfl⟩ := hpe
  rfl

/-- Witness for claim C4: the body is a perfectly valid JSON object whose
text contains `"Success"`, and the oracle would even parse it — yet the frame
becomes `snapshot-complete`, not data. -/
theorem success_body_completes_snapshot_witness :
    (provTwoConsumers.isSnapshotComplete = false
      ∧ provTwoConsumers.config.snapshotEndToken = some "end"
      ∧ ("end" : String) ≠ ""
      ∧ jsIncludes (jsToLower (jsTrim "\x7b\x22status\x22:\x22Success\x22\x7d"))
          "success" = true)
    ∧ (provTwoConsumers.handleMessage
        (fun _ => some (.obj [("status", .str "Success")])) 150
        "\x7b\x22status\x22:\x22Success\x22\x7d").1.isSnapshotComplete = true
    ∧ (provTwoConsumers.handleMessage
        (fun _ => some (.obj [("status", .str "Success")])) 150
        "\x7b\x22status\x22:\x22Success\x22\x7d").2
        = provTwoConsumers.subscribers.map (fun portId => (portId,
            WorkerEvent.snapshotComplete provTwoConsumers.providerId
              provTwoConsumers.statistics.snapshotRowsReceived
              (150 - provTwoConsumers.snapshotStartTime))) :=
  ⟨⟨rfl, rfl, by decide, by decide⟩,
   (success_body_completes_snapshot provTwoConsumers
      (fun _ => some (.obj [("status", .str "Success")])) 150
      "\x7b\x22status\x22:\x22Success\x22\x7d" "end" rfl rfl (by decide)
      (by decide)).1,
   (success_body_completes_snapshot provTwoConsumers
      (fun _ => some (.obj [("status", .str "Success")])) 150
      "\x7b\x22status\x22:\x22Success\x22\x7d" "end" rfl rfl (by decide)
      (by decide)).2.2.2.1⟩

/-! ## Claim C6 -/

/-- A provider session mid connection attempt: `connect()` has run (one
`activate()` call) but the transport's `onConnect` has not yet fired. -/
def provConnecting : ProviderConnection where
  providerId := "p3"
  config := cfgEnd
  snapshot := []
  subscribers := ["port-1"]
  hasConnection := true
  hasSubscription := false
  activateCount := 1
  statistics :=
    { snapshotRowsReceived := 0
      updateRowsReceived := 0
      connectionCount := 0
      disconnectionCount := 0
      isConnected := false
      bytesReceived := 0
      mode := .idle }
  isConnecting := true
  isSnapshotComplete := false
  snapshotStartTime := 0

/-- Worker registry holding the mid-connect session above. -/
def workerConnecting : WorkerState where
  providers := [("p3", provConnecting)]
  ports := ["port-1"]

/-- Counterexample to claim C6: a `connect` request arriving while the
session is still `Connecting` (not yet connected) is answered with nothing
but the bare `response: success` acknowledgement — no message describing the
current state is sent to the requesting consumer, so the consumer is not
"synchronously told the current state". -/
theorem connect_while_connecting_gets_no_state_message :
    provConnecting.isConnecting = true
    ∧ provConnecting.statistics.isConnected = false
    ∧ (handleConnect workerConnecting "port-2" "p3" cfgEnd (some "c2")).2
        = [("port-2", PortMsg.responseSuccess (some "c2"))]
    ∧ ((handleConnect workerConnecting "port-2" "p3" cfgEnd (some "c2")).2.map
        (fun m => PortMsg.isPush m.2)) = [false] :=
  ⟨rfl, rfl, rfl, rfl⟩

/-- Claim C6 (amended): a `connect` request while the session is already
`Connecting` or connected is a transport no-op — the `connect()` guard
returns without touching the state, so no second `activate()` happens and
the stored provider changes only by registering the requesting port as a
subscriber.  When the session is already connected the requester is
synchronously sent the current state (a `connected` event, plus the cached
records when the cache is non-empty) before the `response` acknowledgement;
when it is merely connecting, the requester receives only the
acknowledgement. -/
theorem connect_request_while_busy_no_second_connection
    (st : WorkerState) (portId providerId : String) (config : Config)
    (mid : Option String) (p : ProviderConnection)
    (hget : jsMapGet st.providers providerId = some p)
    (hbusy : (p.isConnecting || p.statistics.isConnected) = true) :
    p.connect = p
    ∧ jsMapGet (handleConnect st portId providerId config mid).1.providers
        providerId
        = some { p with subscribers := subscribersAdd p.subscribers portId }
    ∧ (p.statistics.isConnected = true →
        (handleConnect st portId providerId config mid).2
          = (portId, PortMsg.push (.connected providerId providerId)) ::
              ((if p.snapshot.length > 0 then
                  [(portId, PortMsg.push
                      (.data providerId p.getSnapshot false))]
                else [])
               ++ [(portId, PortMsg.responseSuccess mid)]))
    ∧ (p.statistics.isConnected = false →
        (handleConnect st portId providerId config mid).2
          = [(portId, PortMsg.responseSuccess mid)]) := by
  obtain ⟨pid2, cfg2, snap2, subs2, hc2, hs2, ac2, stats2, icn2, isc2, sst2⟩ := p
  obtain ⟨r1, r2, r3, r4, rc, rb, rm⟩ := stats2
  simp only at hbusy
  refine ⟨?_, ?_, ?_, ?_⟩
  · rw [ProviderConnection.connect, if_pos hbusy]
  · simp only [handleConnect, hget]
    cases hrc : rc with
    | true =>
      simp only [hrc] at hbusy ⊢
      simp only [Bool.and_false, Bool.not_true, Bool.if_false_right,
        Bool.and_true]
      rw [if_neg (by simp)]
      rw [if_pos trivial]
      exact jsMapGet_jsMapSet_self st.providers providerId _
    | false =>
      simp only [hrc, Bool.or_false] at hbusy
      subst hbusy
      simp only [Bool.not_true, Bool.and_false]
      rw [if_neg (by simp)]
      rw [if_neg (by simp)]
      exact jsMapGet_jsMapSet_self st.providers providerId _
  · intro hconn
    simp only at hconn
    subst hconn
    simp only [handleConnect, hget]
    rw [if_neg (by simp)]
    rw [if_pos trivial]
    simp [ProviderConnection.getSnapshot, snapValues]
  · intro hnc
    simp only at hnc
    subst hnc
    simp only [Bool.or_false] at hbusy
    subst hbusy
    simp only [handleConnect, hget]
    rw [if_neg (by simp)]
    rw [if_neg (by simp)]

/-- Witness for the amended claim C6, at a connected session (`p1`, two
consumers, non-empty cache) — the guard and the state-replay branch. -/
theorem connect_request_while_busy_no_second_connection_witness :
    (jsMapGet workerTwoConsumers.providers "p1" = some provTwoConsumers
      ∧ (provTwoConsumers.isConnecting
          || provTwoConsumers.statistics.isConnected) = true)
    ∧ (provTwoConsumers.connect = provTwoConsumers
      ∧ jsMapGet (handleConnect workerTwoConsumers "port-9" "p1" cfgEnd
          (some "m9")).1.providers "p1"
          = some { provTwoConsumers with
              subscribers :=
                subscribersAdd provTwoConsumers.subscribers "port-9" }) :=
  ⟨⟨rfl, rfl⟩,
   (connect_request_while_busy_no_second_connection workerTwoConsumers
      "port-9" "p1" cfgEnd (some "m9") provTwoConsumers rfl rfl).1,
   (connect_request_while_busy_no_second_connection workerTwoConsumers
      "port-9" "p1" cfgEnd (some "m9") provTwoConsumers rfl rfl).2.1⟩

/-! ## Claim C5 -/

/-- Counterexample to claim C5, in two parts.  First, a non-JSON frame
(`"hello"`) is indeed dropped without an event, but the session state is not
unchanged: the `bytesReceived` counter grows by the body length (40 → 45).
Second, a JSON array `[null]` is parsed successfully, yet no `DataRecord(s)`
of its length are delivered: reading the key column of the `null` record
throws, and the catch handler broadcasts an `error` event instead. -/
theorem non_json_frame_bumps_counter_and_null_record_errors :
    ((provTwoConsumers.handleMessage parseFixture 300 "hello").2 = []
      ∧ provTwoConsumers.statistics.bytesReceived = 40
      ∧ (provTwoConsumers.handleMessage parseFixture 300
          "hello").1.statistics.bytesReceived = 45)
    ∧ (parseFixture "[null]" = some (.arr [.null])
      ∧ (provTwoConsumers.handleMessage parseFixture 300 "[null]").2
          = [("port-1", WorkerEvent.errorEvent "p1"
                (nullReadErrorMessage "positionId")),
             ("port-2", WorkerEvent.errorEvent "p1"
                (nullReadErrorMessage "positionId"))]) :=
  ⟨⟨rfl, rfl, rfl⟩, rfl, rfl⟩

/-- `applyUpdatesToSnapshot` runs to completion when no record is `null`. -/
theorem applyUpdates_completes (keyColumn : String) (us : List Json) :
    ∀ m : SnapMap, (∀ u ∈ us, u.isNull = false) →
      (applyUpdatesToSnapshot keyColumn m us).2 = true := by
  induction us with
  | nil =>
    intro m _
    rfl
  | cons u rest ih =>
    intro m h
    rw [applyUpdatesToSnapshot]
    have hs := applyOneUpdate_isSome keyColumn m u (h u (by simp))
    cases hap : applyOneUpdate keyColumn m u with
    | none =>
      rw [hap] at hs
      cases hs
    | some m' =>
      exact ih m' fun v hv => h v (by simp [hv])

/-- Claim C5 (amended): for a frame that is not classified end-of-snapshot:
a JSON-parse failure is silently dropped — no event, no error, and the
cache, row counters and phase are unchanged — except that the cumulative
`bytesReceived` counter still grows by the trimmed body's length; a body
parsing to an object yields one record and to an array of length N yields N
records, and when none of those records is JSON `null` exactly those records
are broadcast as a `data` event to every subscriber (a `null` record instead
aborts with an error event, per the counterexample). -/
theorem handleMessage_data_path (c : ProviderConnection)
    (parse : String → Option Json) (now : Nat) (body : String)
    (hnoend : (!c.isSnapshotComplete
      && c.isEndToken (jsTrim body)) = false) :
    (parse (jsTrim body) = none →
      (c.handleMessage parse now body).2 = []
      ∧ (c.handleMessage parse now body).1.snapshot = c.snapshot
      ∧ (c.handleMessage parse now body).1.isSnapshotComplete
          = c.isSnapshotComplete
      ∧ (c.handleMessage parse now body).1.statistics.mode
          = c.statistics.mode
      ∧ (c.handleMessage parse now body).1.statistics.snapshotRowsReceived
          = c.statistics.snapshotRowsReceived
      ∧ (c.handleMessage parse now body).1.statistics.updateRowsReceived
          = c.statistics.updateRowsReceived
      ∧ (c.handleMessage parse now body).1.statistics.bytesReceived
          = c.statistics.bytesReceived + (jsTrim body).length)
    ∧ (∀ fields, (jsToPositions (Json.obj fields)).length = 1)
    ∧ (∀ elems, (jsToPositions (Json.arr elems)).length = elems.length)
    ∧ (∀ d, parse (jsTrim body) = some d →
        (∀ u ∈ jsToPositions d, u.isNull = false) →
        (c.handleMessage parse now body).2
          = c.subscribers.map (fun portId => (portId,
              WorkerEvent.data c.providerId (jsToPositions d)
                (!c.isSnapshotComplete)))) := by
  obtain ⟨pid, cfg, snap, subs, hc, hs, ac, stats, icn, isc, sst⟩ := c
  simp only [ProviderConnection.isEndToken] at hnoend
  simp only [ProviderConnection.handleMessage, ProviderConnection.isEndToken]
  rw [hnoend]
  simp only [Bool.false_eq_true, if_false]
  refine ⟨?_, fun fields => rfl, fun elems => rfl, ?_⟩
  · intro hp
    rw [hp]
    exact ⟨rfl, rfl, rfl, rfl, rfl, rfl, rfl⟩
  · intro d hp hall
    rw [hp]
    have happ := applyUpdates_completes cfg.keyColumnOrDefault
      (jsToPositions d) snap hall
    split
    · next heq => exact Option.noConfusion heq
    · next data heq =>
      injection heq with heq2
      subst heq2
      rw [if_pos happ]
      simp [ProviderConnection.broadcastTo]

/-- Witness for the amended claim C5: the non-JSON body `"hello"` (dropped,
bytes counted) and a JSON object body (one record broadcast as data). -/
theorem handleMessage_data_path_witness :
    ((!provTwoConsumers.isSnapshotComplete
        && provTwoConsumers.isEndToken (jsTrim "hello")) = false
      ∧ parseFixture (jsTrim "hello") = none
      ∧ (provTwoConsumers.handleMessage parseFixture 300 "hello").2 = []
      ∧ (provTwoConsumers.handleMessage parseFixture 300
          "hello").1.statistics.bytesReceived
          = provTwoConsumers.statistics.bytesReceived
            + (jsTrim "hello").length)
    ∧ (parseFixture (jsTrim "\x7b\x22positionId\x22:\x229\x22\x7d")
        = some (.obj [("positionId", .str "9")])
      ∧ (provTwoConsumers.handleMessage parseFixture 300
          "\x7b\x22positionId\x22:\x229\x22\x7d").2
          = provTwoConsumers.subscribers.map (fun portId => (portId,
              WorkerEvent.data provTwoConsumers.providerId
                (jsToPositions (.obj [("positionId", .str "9")]))
                (!provTwoConsumers.isSnapshotComplete)))) :=
  ⟨⟨rfl, rfl,
    ((handleMessage_data_path provTwoConsumers parseFixture 300 "hello"
        rfl).1 rfl).1,
    ((handleMessage_data_path provTwoConsumers parseFixture 300 "hello"
        rfl).1 rfl).2.2.2.2.2.2⟩,
   rfl,
   (handleMessage_data_path provTwoConsumers parseFixture 300
      "\x7b\x22positionId\x22:\x229\x22\x7d" rfl).2.2.2
      (.obj [("positionId", .str "9")]) rfl (by decide)⟩

/-! ## Claim C9 -/

/-- The stringified key under which `applyUpdatesToSnapshot` files a record:
`some (String(update[keyColumn]))` when the key field is present and neither
`undefined` nor `null`. -/
def recKey (keyColumn : String) (u : Json) : Option String :=
  match jsIndex u keyColumn with
  | some v => if v.isNull then none else some (jsString v)
  | none => none

/-- A sequence of `applyBatch` calls on an initially empty cache. -/
def applyBatches (keyColumn : String) (batches : List (List Json)) : SnapMap :=
  batches.foldl (fun m b => (applyUpdatesToSnapshot keyColumn m b).1) []

/-- The key set of the cache evolving under upserts, abstracted to key
lists: insert at the end when absent, keep in place when present. -/
def insKeys : List String → List String → List String
  | m, [] => m
  | m, k :: ks => insKeys (if k ∈ m then m else m ++ [k]) ks

/-- A record with a defined key is upserted under exactly that key. -/
theorem applyOneUpdate_of_recKey (keyColumn : String) (m : SnapMap)
    (u : Json) (k : String) (hk : recKey keyColumn u = some k) :
    applyOneUpdate keyColumn m u = some (jsMapSet m k u) := by
  have hund : u.isNull = false := by
    cases u with
    | null =>
      exfalso
      simp [recKey, jsIndex] at hk
    | bool b => rfl
    | num n => rfl
    | str s => rfl
    | arr elems => rfl
    | obj fields => rfl
  rw [applyOneUpdate, if_neg (by simp [hund])]
  rw [recKey] at hk
  revert hk
  cases hj : jsIndex u keyColumn with
  | none =>
    intro hk
    cases hk
  | some v =>
    intro hk
    have hk2 : (if v.isNull = true then (none : Option String)
        else some (jsString v)) = some k := hk
    have hgoal : (match (some v : Option Json) with
        | none => some m
        | some v => if v.isNull = true then some m
            else some (jsMapSet m (jsString v) u))
        = if v.isNull = true then some m
            else some (jsMapSet m (jsString v) u) := rfl
    rw [hgoal]
    by_cases hv : v.isNull = true
    · rw [if_pos hv] at hk2
      cases hk2
    · rw [if_neg hv] at hk2
      injection hk2 with hk3
      rw [if_neg hv, hk3]

/-- Under per-record defined keys, the cache's key list after one batch is
`insKeys` of the batch's stringified keys. -/
theorem applyUpdates_keys (keyColumn : String) (us : List Json) :
    ∀ m : SnapMap, (∀ u ∈ us, (recKey keyColumn u).isSome = true) →
      jsMapKeys (applyUpdatesToSnapshot keyColumn m us).1
        = insKeys (jsMapKeys m) (us.filterMap (recKey keyColumn)) := by
  induction us with
  | nil =>
    intro m _
    rfl
  | cons u rest ih =>
    intro m h
    have hu := h u (by simp)
    cases hk : recKey keyColumn u with
    | none =>
      rw [hk] at hu
      cases hu
    | some k =>
      have hap := applyOneUpdate_of_recKey keyColumn m u k hk
      rw [applyUpdatesToSnapshot, hap]
      show jsMapKeys (applyUpdatesToSnapshot keyColumn (jsMapSet m k u) rest).1
          = insKeys (jsMapKeys m) (List.filterMap (recKey keyColumn) (u :: rest))
      simp only [List.filterMap_cons, hk]
      rw [insKeys]
      rw [ih (jsMapSet m k u) (fun v hv => h v (by simp [hv]))]
      rw [jsMapKeys_jsMapSet]

/-- `insKeys` over an append processes the two key lists in sequence. -/
theorem insKeys_append (ks1 ks2 : List String) :
    ∀ m : List String, insKeys m (ks1 ++ ks2) = insKeys (insKeys m ks1) ks2 := by
  induction ks1 with
  | nil =>
    intro m
    rfl
  | cons k rest ih =>
    intro m
    rw [List.cons_append, insKeys, insKeys, ih]

/-- Size of the key set after inserts: bounded by the number of inserts,
with equality exactly when the inserted keys are mutually distinct and fresh. -/
theorem insKeys_length (ks : List String) :
    ∀ m : List String,
      (insKeys m ks).length ≤ m.length + ks.length
      ∧ ((insKeys m ks).length = m.length + ks.length
          ↔ ks.Nodup ∧ ∀ k ∈ ks, k ∉ m) := by
  induction ks with
  | nil =>
    intro m
    refine ⟨by simp [insKeys], ?_⟩
    simp [insKeys]
  | cons k rest ih =>
    intro m
    by_cases hk : k ∈ m
    · rw [insKeys, if_pos hk]
      obtain ⟨ha, hb⟩ := ih m
      refine ⟨by simpa using Nat.le_succ_of_le ha, ?_⟩
      constructor
      · intro he
        simp only [List.length_cons] at he
        omega
      · rintro ⟨_, hmem⟩
        exact absurd hk (hmem k (by simp))
    · rw [insKeys, if_neg hk]
      obtain ⟨ha, hb⟩ := ih (m ++ [k])
      have hlen : (m ++ [k]).length = m.length + 1 := by simp
      rw [hlen] at ha hb
      refine ⟨by simp only [List.length_cons]; omega, ?_⟩
      constructor
      · intro he
        simp only [List.length_cons] at he
        obtain ⟨hnd, hni⟩ := hb.mp (by omega)
        refine ⟨List.nodup_cons.mpr ⟨?_, hnd⟩, ?_⟩
        · intro hkr
          have h2 := hni k hkr
          simp at h2
        · intro k2 hk2
          rcases List.mem_cons.mp hk2 with heq | hk2r
          · rw [heq]
            exact hk
          · have h2 := hni k2 hk2r
            simp only [List.mem_append, List.mem_singleton] at h2
            push_neg at h2
            exact h2.1
      · rintro ⟨hnd, hni⟩
        obtain ⟨hknr, hndr⟩ := List.nodup_cons.mp hnd
        have hside : rest.Nodup ∧ ∀ k2 ∈ rest, k2 ∉ m ++ [k] := by
          refine ⟨hndr, ?_⟩
          intro k2 hk2
          simp only [List.mem_append, List.mem_singleton]
          push_neg
          refine ⟨hni k2 (List.mem_cons_of_mem _ hk2), ?_⟩
          intro heq
          rw [heq] at hk2
          exact hknr hk2
        have h3 := hb.mpr hside
        simp only [List.length_cons]
        omega

/-- `filterMap` keeps the length when the function is total on the list. -/
theorem filterMap_length_all_some {α β : Type} (f : α → Option β) :
    ∀ l : List α, (∀ a ∈ l, (f a).isSome = true) →
      (l.filterMap f).length = l.length := by
  intro l
  induction l with
  | nil =>
    intro _
    rfl
  | cons a rest ih =>
    intro h
    have ha := h a (by simp)
    cases hfa : f a with
    | none =>
      rw [hfa] at ha
      cases ha
    | some b =>
      simp only [List.filterMap_cons, hfa, List.length_cons]
      rw [ih fun x hx => h x (by simp [hx])]

/-- Key list of a whole batch sequence on the empty cache. -/
theorem applyBatches_keys (keyColumn : String) (bs : List (List Json)) :
    ∀ m : SnapMap,
      (∀ b ∈ bs, ∀ u ∈ b, (recKey keyColumn u).isSome = true) →
      jsMapKeys (bs.foldl
          (fun m2 b => (applyUpdatesToSnapshot keyColumn m2 b).1) m)
        = insKeys (jsMapKeys m) ((bs.flatten).filterMap (recKey keyColumn)) := by
  induction bs with
  | nil =>
    intro m _
    rfl
  | cons b rest ih =>
    intro m h
    rw [List.foldl_cons]
    rw [ih _ fun b2 hb2 u hu => h b2 (by simp [hb2]) u hu]
    rw [applyUpdates_keys keyColumn b m (h b (by simp))]
    rw [List.flatten_cons, List.filterMap_append, insKeys_append]

/-- Claim C9: over any sequence of batches applied to an initially empty
cache (each record carrying a defined, non-null key), `values()` returns at
most as many records as were applied in total, with equality exactly when
the stringified keys of all applied records are pairwise distinct; and
re-applying a record whose key is already present overwrites the stored
record in place, leaving the cache size unchanged. -/
theorem applyBatch_cache_size (keyColumn : String) (bs : List (List Json))
    (hkeyed : ∀ b ∈ bs, ∀ u ∈ b, (recKey keyColumn u).isSome = true) :
    (snapValues (applyBatches keyColumn bs)).length
        ≤ (bs.map List.length).sum
    ∧ ((snapValues (applyBatches keyColumn bs)).length
          = (bs.map List.length).sum
        ↔ ((bs.flatten).filterMap (recKey keyColumn)).Nodup)
    ∧ ∀ (m : SnapMap) (u : Json) (k : String),
        recKey keyColumn u = some k → k ∈ jsMapKeys m →
        (applyUpdatesToSnapshot keyColumn m [u]).1 = jsMapSet m k u
        ∧ ((applyUpdatesToSnapshot keyColumn m [u]).1).length = m.length
        ∧ jsMapGet (applyUpdatesToSnapshot keyColumn m [u]).1 k = some u := by
  have hkeys := applyBatches_keys keyColumn bs [] hkeyed
  have hlen1 : (snapValues (applyBatches keyColumn bs)).length
      = (insKeys [] ((bs.flatten).filterMap (recKey keyColumn))).length := by
    calc (snapValues (applyBatches keyColumn bs)).length
        = (jsMapKeys (applyBatches keyColumn bs)).length := by
          simp [snapValues, jsMapKeys]
      _ = (insKeys [] ((bs.flatten).filterMap (recKey keyColumn))).length := by
          rw [applyBatches, hkeys]
          rfl
  have hsum : (bs.map List.length).sum
      = ((bs.flatten).filterMap (recKey keyColumn)).length := by
    rw [filterMap_length_all_some (recKey keyColumn) bs.flatten ?hall]
    case hall =>
      intro u hu
      obtain ⟨b, hb, hub⟩ := List.mem_flatten.mp hu
      exact hkeyed b hb u hub
    rw [List.length_flatten]
  obtain ⟨hle, hiff⟩ := insKeys_length
    ((bs.flatten).filterMap (recKey keyColumn)) []
  refine ⟨?_, ?_, ?_⟩
  · rw [hlen1, hsum]
    simpa using hle
  · rw [hlen1, hsum]
    constructor
    · intro he
      exact (hiff.mp (by simpa using he)).1
    · intro hnd
      have h2 := hiff.mpr ⟨hnd, fun k _ => List.not_mem_nil k⟩
      simpa using h2
  · intro m u k hk hmem
    have hap := applyOneUpdate_of_recKey keyColumn m u k hk
    have h1 : (applyUpdatesToSnapshot keyColumn m [u]).1 = jsMapSet m k u := by
      rw [applyUpdatesToSnapshot, hap]
      rfl
    refine ⟨h1, ?_, ?_⟩
    · rw [h1, jsMapSet_length, if_pos hmem]
    · rw [h1]
      exact jsMapGet_jsMapSet_self m k u

/-- Three records in two batches; the second batch re-uses key `"a"`. -/
def batchFixture : List (List Json) :=
  [[.obj [("positionId", .str "a"), ("v", .num 1)],
    .obj [("positionId", .str "b"), ("v", .num 2)]],
   [.obj [("positionId", .str "a"), ("v", .num 9)]]]

/-- Witness for claim C9: three applied records, two distinct keys — the
cache holds 2 ≤ 3 records, strictly fewer because the key list is not
duplicate-free. -/
theorem applyBatch_cache_size_witness :
    (∀ b ∈ batchFixture, ∀ u ∈ b, (recKey "positionId" u).isSome = true)
    ∧ (snapValues (applyBatches "positionId" batchFixture)).length
        ≤ (batchFixture.map List.length).sum
    ∧ (snapValues (applyBatches "positionId" batchFixture)).length = 2
    ∧ (batchFixture.map List.length).sum = 3
    ∧ ((batchFixture.flatten).filterMap (recKey "positionId")).Nodup = False :=
  ⟨by decide,
   (applyBatch_cache_size "positionId" batchFixture (by decide)).1,
   by decide, by decide, by simp [batchFixture, recKey, jsIndex, jsMapGet,
     Json.isNull, jsString, List.filterMap]⟩


/-! ## Claim C8 -/

/-- Unfolding of `clientRun` on a cons, with the step's settlements
prepended. -/
theorem clientRun_cons (st : ClientState) (i : ClientInput)
    (rest : List ClientInput) :
    clientRun st (i :: rest)
      = ((clientRun (clientStep st i).1 rest).1,
         (clientStep st i).2 ++ (clientRun (clientStep st i).1 rest).2) := rfl

theorem settleCount_append (messageId : String) (a b : List Settlement) :
    settleCount messageId (a ++ b)
      = settleCount messageId a + settleCount messageId b := by
  simp [settleCount, List.filter_append]

theorem mem_pendingAdd (l : List String) (j a : String) :
    a ∈ pendingAdd l j ↔ a ∈ l ∨ a = j := by
  rw [pendingAdd]
  split
  · next hj =>
    constructor
    · exact Or.inl
    · rintro (h | rfl)
      · exact h
      · exact hj
  · simp [List.mem_append]

theorem mem_pendingRemove (l : List String) (j a : String) :
    a ∈ pendingRemove l j ↔ a ∈ l ∧ a ≠ j := by
  simp [pendingRemove, List.mem_filter]

/-- `sendIds` occurrences of one id, counted directly. -/
def countSend (messageId : String) : List ClientInput → Nat
  | [] => 0
  | ClientInput.send j :: rest =>
    (if j = messageId then 1 else 0) + countSend messageId rest
  | ClientInput.workerMsg _ _ :: rest => countSend messageId rest
  | ClientInput.timeoutFire _ :: rest => countSend messageId rest

theorem countSend_cons (messageId : String) (i : ClientInput)
    (rest : List ClientInput) :
    countSend messageId (i :: rest)
      = countSend messageId [i] + countSend messageId rest := by
  cases i <;> simp [countSend]

/-- A trace with no `send` for the id contributes no send count. -/
theorem countSend_eq_zero_of_not_mem (messageId : String) :
    ∀ trace : List ClientInput, messageId ∉ sendIds trace →
      countSend messageId trace = 0 := by
  intro trace
  induction trace with
  | nil =>
    intro _
    rfl
  | cons i rest ih =>
    intro h
    cases i with
    | send j =>
      rw [sendIds] at h
      simp only [List.mem_cons] at h
      push_neg at h
      rw [countSend, if_neg fun hh => h.1 hh.symm, ih h.2]
    | workerMsg oid err =>
      rw [sendIds] at h
      rw [countSend]
      exact ih h
    | timeoutFire j =>
      rw [sendIds] at h
      rw [countSend]
      exact ih h

/-- Distinct send ids bound each id's send count by one. -/
theorem countSend_le_one_of_nodup (messageId : String) :
    ∀ trace : List ClientInput, (sendIds trace).Nodup →
      countSend messageId trace ≤ 1 := by
  intro trace
  induction trace with
  | nil =>
    intro _
    exact Nat.zero_le 1
  | cons i rest ih =>
    intro h
    cases i with
    | send j =>
      rw [sendIds] at h
      obtain ⟨hj, hrest⟩ := List.nodup_cons.mp h
      rw [countSend]
      by_cases hjm : j = messageId
      · rw [if_pos hjm]
        rw [countSend_eq_zero_of_not_mem messageId rest (hjm ▸ hj)]
      · rw [if_neg hjm]
        simpa using ih hrest
    | workerMsg oid err =>
      rw [sendIds] at h
      rw [countSend]
      exact ih h
    | timeoutFire j =>
      rw [sendIds] at h
      rw [countSend]
      exact ih h

/-- 1 when the request id is pending, else 0. -/
def pendingInd (messageId : String) (st : ClientState) : Nat :=
  if messageId ∈ st.pendingMessages then 1 else 0

/-- Per-step accounting: a step can settle a given id only by consuming its
pending entry, and only a `send` can (re)create one. -/
theorem clientStep_settle_le (messageId : String) (st : ClientState)
    (i : ClientInput) :
    settleCount messageId (clientStep st i).2
        + pendingInd messageId (clientStep st i).1
      ≤ pendingInd messageId st + countSend messageId [i] := by
  cases i with
  | send j =>
    simp only [clientStep, settleCount, List.filter_nil, List.length_nil,
      countSend, pendingInd, Nat.zero_add, Nat.add_zero]
    by_cases hmem : messageId ∈ st.pendingMessages
    · rw [if_pos hmem,
        if_pos (show messageId ∈ pendingAdd st.pendingMessages j from
          (mem_pendingAdd _ _ _).mpr (Or.inl hmem))]
      omega
    · rw [if_neg hmem]
      by_cases hj : j = messageId
      · rw [if_pos hj,
          if_pos (show messageId ∈ pendingAdd st.pendingMessages j from
            (mem_pendingAdd _ _ _).mpr (Or.inr hj.symm))]
      · rw [if_neg hj,
          if_neg (show messageId ∉ pendingAdd st.pendingMessages j from by
            rw [mem_pendingAdd]
            push_neg
            exact ⟨hmem, fun hh => hj hh.symm⟩)]
  | workerMsg oid err =>
    cases oid with
    | none =>
      simp [clientStep, settleCount, countSend, pendingInd]
    | some j =>
      simp only [clientStep, countSend, Nat.add_zero]
      by_cases hj : j = messageId
      · rw [hj]
        by_cases hmem : messageId ∈ st.pendingMessages
        · rw [if_pos hmem]
          have h1 : settleCount messageId [match err with
              | some e => Settlement.rejected messageId e
              | none => Settlement.resolved messageId] = 1 := by
            cases err <;> simp [settleCount, Settlement.settles]
          have h2 : pendingInd messageId
              ⟨pendingRemove st.pendingMessages messageId⟩ = 0 := by
            rw [pendingInd, if_neg]
            rw [mem_pendingRemove]
            push_neg
            intro _
            rfl
          rw [h1, h2, pendingInd, if_pos hmem]
        · rw [if_neg hmem]
          simp [settleCount]
      · by_cases hjp : j ∈ st.pendingMessages
        · rw [if_pos hjp]
          have h1 : settleCount messageId [match err with
              | some e => Settlement.rejected j e
              | none => Settlement.resolved j] = 0 := by
            cases err <;> simp [settleCount, Settlement.settles, hj]
          have h2 : pendingInd messageId
              ⟨pendingRemove st.pendingMessages j⟩
              = pendingInd messageId st := by
            rw [pendingInd, pendingInd]
            by_cases hmem : messageId ∈ st.pendingMessages
            · rw [if_pos hmem, if_pos ((mem_pendingRemove _ _ _).mpr
                ⟨hmem, fun hh => hj hh.symm⟩)]
            · rw [if_neg hmem, if_neg]
              rw [mem_pendingRemove]
              push_neg
              intro hh
              exact absurd hh hmem
          rw [h1, h2]
          omega
        · rw [if_neg hjp]
          simp [settleCount]
  | timeoutFire j =>
    simp only [clientStep, countSend, Nat.add_zero]
    by_cases hj : j = messageId
    · rw [hj]
      by_cases hmem : messageId ∈ st.pendingMessages
      · rw [if_pos hmem]
        have h1 : settleCount messageId
            [Settlement.rejected messageId "Message timeout"] = 1 := by
          simp [settleCount, Settlement.settles]
        have h2 : pendingInd messageId
            ⟨pendingRemove st.pendingMessages messageId⟩ = 0 := by
          rw [pendingInd, if_neg]
          rw [mem_pendingRemove]
          push_neg
          intro _
          rfl
        rw [h1, h2, pendingInd, if_pos hmem]
      · rw [if_neg hmem]
        simp [settleCount]
    · by_cases hjp : j ∈ st.pendingMessages
      · rw [if_pos hjp]
        have h1 : settleCount messageId
            [Settlement.rejected j "Message timeout"] = 0 := by
          simp [settleCount, Settlement.settles, hj]
        have h2 : pendingInd messageId
            ⟨pendingRemove st.pendingMessages j⟩
            = pendingInd messageId st := by
          rw [pendingInd, pendingInd]
          by_cases hmem : messageId ∈ st.pendingMessages
          · rw [if_pos hmem, if_pos ((mem_pendingRemove _ _ _).mpr
              ⟨hmem, fun hh => hj hh.symm⟩)]
          · rw [if_neg hmem, if_neg]
            rw [mem_pendingRemove]
            push_neg
            intro hh
            exact absurd hh hmem
        rw [h1, h2]
        omega
      · rw [if_neg hjp]
        simp [settleCount]

/-- Run-level accounting: settlements of an id plus its remaining pending
entry never exceed its initial pending entry plus its sends. -/
theorem clientRun_settle_le (messageId : String)
    (trace : List ClientInput) :
    ∀ st : ClientState,
      settleCount messageId (clientRun st trace).2
          + pendingInd messageId (clientRun st trace).1
        ≤ pendingInd messageId st + countSend messageId trace := by
  induction trace with
  | nil =>
    intro st
    simp [clientRun, settleCount, countSend]
  | cons i rest ih =>
    intro st
    rw [clientRun_cons]
    simp only [settleCount_append]
    have h1 := clientStep_settle_le messageId st i
    have h2 := ih (clientStep st i).1
    rw [countSend_cons]
    omega

/-- Once the id is pending, a later timeout callback guarantees at least one
settlement. -/
theorem clientRun_settle_ge (messageId : String)
    (trace : List ClientInput) :
    ∀ st : ClientState, messageId ∈ st.pendingMessages →
      ClientInput.timeoutFire messageId ∈ trace →
      1 ≤ settleCount messageId (clientRun st trace).2 := by
  induction trace with
  | nil =>
    intro st _ htr
    cases htr
  | cons i rest ih =>
    intro st hmem htr
    rw [clientRun_cons]
    simp only [settleCount_append]
    cases i with
    | send j =>
      have htr2 : ClientInput.timeoutFire messageId ∈ rest := by
        rcases List.mem_cons.mp htr with heq | h2
        · cases heq
        · exact h2
      have hmem2 : messageId
          ∈ (clientStep st (ClientInput.send j)).1.pendingMessages := by
        simp only [clientStep]
        exact (mem_pendingAdd _ _ _).mpr (Or.inl hmem)
      have hih := ih _ hmem2 htr2
      omega
    | workerMsg oid err =>
      have htr2 : ClientInput.timeoutFire messageId ∈ rest := by
        rcases List.mem_cons.mp htr with heq | h2
        · cases heq
        · exact h2
      cases oid with
      | none =>
        have hih := ih st hmem htr2
        simp only [clientStep]
        show 1 ≤ settleCount messageId []
            + settleCount messageId (clientRun st rest).2
        omega
      | some j =>
        by_cases hj : j = messageId
        · subst hj
          simp only [clientStep]
          rw [if_pos hmem]
          cases err with
          | none =>
            show 1 ≤ settleCount j [Settlement.resolved j]
                + settleCount j (clientRun
                    ⟨pendingRemove st.pendingMessages j⟩ rest).2
            have h1 : settleCount j [Settlement.resolved j] = 1 := by
              simp [settleCount, Settlement.settles]
            omega
          | some e =>
            show 1 ≤ settleCount j [Settlement.rejected j e]
                + settleCount j (clientRun
                    ⟨pendingRemove st.pendingMessages j⟩ rest).2
            have h1 : settleCount j [Settlement.rejected j e] = 1 := by
              simp [settleCount, Settlement.settles]
            omega
        · simp only [clientStep]
          by_cases hjp : j ∈ st.pendingMessages
          · rw [if_pos hjp]
            have hmem2 : messageId ∈ pendingRemove st.pendingMessages j :=
              (mem_pendingRemove _ _ _).mpr ⟨hmem, fun hh => hj hh.symm⟩
            have hih := ih ⟨pendingRemove st.pendingMessages j⟩ hmem2 htr2
            cases err with
            | none =>
              show 1 ≤ settleCount messageId [Settlement.resolved j]
                  + settleCount messageId (clientRun
                      ⟨pendingRemove st.pendingMessages j⟩ rest).2
              omega
            | some e =>
              show 1 ≤ settleCount messageId [Settlement.rejected j e]
                  + settleCount messageId (clientRun
                      ⟨pendingRemove st.pendingMessages j⟩ rest).2
              omega
          · rw [if_neg hjp]
            have hih := ih st hmem htr2
            show 1 ≤ settleCount messageId []
                + settleCount messageId (clientRun st rest).2
            omega
    | timeoutFire j =>
      by_cases hj : j = messageId
      · subst hj
        simp only [clientStep]
        rw [if_pos hmem]
        show 1 ≤ settleCount j [Settlement.rejected j "Message timeout"]
            + settleCount j (clientRun
                ⟨pendingRemove st.pendingMessages j⟩ rest).2
        have h1 : settleCount j [Settlement.rejected j "Message timeout"]
            = 1 := by
          simp [settleCount, Settlement.settles]
        omega
      · have htr2 : ClientInput.timeoutFire messageId ∈ rest := by
          rcases List.mem_cons.mp htr with heq | h2
          · exfalso
            injection heq with heq2
            exact hj heq2.symm
          · exact h2
        simp only [clientStep]
        by_cases hjp : j ∈ st.pendingMessages
        · rw [if_pos hjp]
          have hmem2 : messageId ∈ pendingRemove st.pendingMessages j :=
            (mem_pendingRemove _ _ _).mpr ⟨hmem, fun hh => hj hh.symm⟩
          have hih := ih ⟨pendingRemove st.pendingMessages j⟩ hmem2 htr2
          show 1 ≤ settleCount messageId
              [Settlement.rejected j "Message timeout"]
              + settleCount messageId (clientRun
                  ⟨pendingRemove st.pendingMessages j⟩ rest).2
          omega
        · rw [if_neg hjp]
          have hih := ih st hmem htr2
          show 1 ≤ settleCount messageId []
              + settleCount messageId (clientRun st rest).2
          omega

/-- `clientRun` over an append runs the two segments in sequence. -/
theorem clientRun_append (l1 l2 : List ClientInput) :
    ∀ st : ClientState,
      clientRun st (l1 ++ l2)
        = ((clientRun (clientRun st l1).1 l2).1,
           (clientRun st l1).2 ++ (clientRun (clientRun st l1).1 l2).2) := by
  induction l1 with
  | nil =>
    intro st
    simp [clientRun]
  | cons i rest ih =>
    intro st
    rw [List.cons_append, clientRun_cons, clientRun_cons, ih]
    simp [List.append_assoc]

/-- Claim C8: in any trace in which the request `messageId` is sent once
(send ids are unique, as `generateMessageId` guarantees) and its 10-second
timeout callback eventually fires — as `setTimeout` guarantees — the
consumer promise is settled exactly once, by the matching response or by the
locally manufactured timeout error, whichever comes first; the pending entry
is gone at the end, and any late response for the same id settles nothing
(the settlement count stays 1 whatever arrives after). -/
theorem pending_request_settled_exactly_once (messageId : String)
    (pre mid post : List ClientInput)
    (hnodup : (sendIds (pre ++ ClientInput.send messageId
        :: (mid ++ ClientInput.timeoutFire messageId :: post))).Nodup) :
    settleCount messageId
      (clientRun (ClientState.mk []) (pre ++ ClientInput.send messageId
        :: (mid ++ ClientInput.timeoutFire messageId :: post))).2 = 1
    ∧ messageId ∉ (clientRun (ClientState.mk [])
        (pre ++ ClientInput.send messageId
          :: (mid ++ ClientInput.timeoutFire messageId
            :: post))).1.pendingMessages := by
  set trace := pre ++ ClientInput.send messageId
      :: (mid ++ ClientInput.timeoutFire messageId :: post) with htrace
  have hle := clientRun_settle_le messageId trace (ClientState.mk [])
  have hcount := countSend_le_one_of_nodup messageId trace hnodup
  have hind : pendingInd messageId (ClientState.mk []) = 0 := by
    simp [pendingInd]
  have hge : 1 ≤ settleCount messageId
      (clientRun (ClientState.mk []) trace).2 := by
    rw [htrace, clientRun_append, settleCount_append, clientRun_cons,
      settleCount_append]
    have hmem2 : messageId ∈ (clientStep (clientRun (ClientState.mk []) pre).1
        (ClientInput.send messageId)).1.pendingMessages := by
      simp only [clientStep]
      exact (mem_pendingAdd _ _ _).mpr (Or.inr rfl)
    have htr : ClientInput.timeoutFire messageId
        ∈ mid ++ ClientInput.timeoutFire messageId :: post :=
      List.mem_append_right _ (List.mem_cons_self _ _)
    have hg := clientRun_settle_ge messageId _ _ hmem2 htr
    omega
  refine ⟨by omega, ?_⟩
  have hzero : pendingInd messageId
      (clientRun (ClientState.mk []) trace).1 = 0 := by omega
  rw [pendingInd] at hzero
  by_contra hmem
  rw [if_pos hmem] at hzero
  cases hzero

/-- Witness for claim C8: request `"x1"` is sent amid unrelated traffic, the
timeout fires, and a late response for `"x1"` arrives afterwards — exactly
one settlement, and the entry is gone. -/
theorem pending_request_settled_exactly_once_witness :
    (sendIds ([ClientInput.send "a"] ++ ClientInput.send "x1"
        :: ([ClientInput.workerMsg (some "a") none]
          ++ ClientInput.timeoutFire "x1"
            :: [ClientInput.workerMsg (some "x1") none]))).Nodup
    ∧ (settleCount "x1" (clientRun (ClientState.mk [])
          ([ClientInput.send "a"] ++ ClientInput.send "x1"
            :: ([ClientInput.workerMsg (some "a") none]
              ++ ClientInput.timeoutFire "x1"
                :: [ClientInput.workerMsg (some "x1") none]))).2 = 1
      ∧ "x1" ∉ (clientRun (ClientState.mk [])
          ([ClientInput.send "a"] ++ ClientInput.send "x1"
            :: ([ClientInput.workerMsg (some "a") none]
              ++ ClientInput.timeoutFire "x1"
                :: [ClientInput.workerMsg (some "x1") none]))).1.pendingMessages) :=
  ⟨by decide,
   pending_request_settled_exactly_once "x1" [ClientInput.send "a"]
     [ClientInput.workerMsg (some "a") none]
     [ClientInput.workerMsg (some "x1") none] (by decide)⟩
